import Mathlib

/-!
Verification of the shortbuilderai pipeline core, shallowly embedded from the
Python sources (`src/main.py`, `src/app/stats.py`, `src/app/uploader.py`,
`src/app/scraper.py`).

Modelling conventions:
* UTC instants are `Nat` seconds since the Unix epoch; `datetime.date()` is
  integer division by 86400, and a `datetime(y, m, d, h)` constructed in UTC is
  `day * 86400 + h * 3600` for the civil day number `day`.
* Python `None`-or-value is `Option`; Python string truthiness (`if not s`)
  treats both `None` and `""` as falsy and is modelled by `pyFalsy`.
* External I/O results (HTTP responses, file-write success) are oracle
  parameters of the embedded functions, so every embedded function is a pure,
  total Lean function of its inputs and oracles.
* File systems are lists of existing paths (or path/content pairs where the
  content matters).
-/

namespace ShortBuilder

/-! ## Scheduling allocator (`src/app/uploader.py`, `_get_next_time_slot`) -/

/-- `TIME_SLOTS_UTC = [10, 18]`: the daily cadence hours, ascending. -/
def TIME_SLOTS_UTC : List Nat := [10, 18]

/-- The UTC instant of hour `h` (minute 0, second 0) on civil day `d`:
`datetime(candidate_date.year, ..., hour, 0, 0, tzinfo=utc)`. -/
def slotOnDay (d h : Nat) : Nat := d * 86400 + h * 3600

/-- The inner `for hour in TIME_SLOTS_UTC` loop of `_get_next_time_slot`:
return the first slot on day `d` strictly after `c`, else `none`. -/
def scanHours (c d : Nat) : List Nat → Option Nat
  | [] => none
  | h :: rest =>
      let slot_dt := slotOnDay d h
      if c < slot_dt then some slot_dt else scanHours c d rest

/-- One day's scan of the `while True` loop body. -/
def findSlotOnDay (c d : Nat) : Option Nat := scanHours c d TIME_SLOTS_UTC

/-- The `while True` loop of `_get_next_time_slot`, with explicit fuel: each
iteration scans the candidate's day and, on failure, restarts from the next
midnight (`datetime(candidate_date) + timedelta(days=1)`).  The termination
theorem below shows fuel `2` always suffices, so the fuelled function is an
exact embedding of the unbounded source loop. -/
def nextSlotLoop : Nat → Nat → Option Nat
  | 0, _ => none
  | fuel + 1, candidate =>
      let d := candidate / 86400
      match findSlotOnDay candidate d with
      | some s => some s
      | none => nextSlotLoop fuel ((d + 1) * 86400)

/-- `candidate = last_dt if (last_dt and last_dt > now_utc) else now_utc`.
`last = none` models a missing or unparsable `last_scheduled` record. -/
def scheduleCandidate (now : Nat) (last : Option Nat) : Nat :=
  match last with
  | some l => if now < l then l else now
  | none => now

/-- `_get_next_time_slot`, as a function of `now` and the persisted
`last_scheduled` state (the loop always succeeds with fuel 2, as proved
below, so the `getD` default is never taken). -/
def get_next_time_slot (now : Nat) (last : Option Nat) : Nat :=
  (nextSlotLoop 2 (scheduleCandidate now last)).getD 0

/-! ### Civil calendar, for the concrete instants named by the spec -/

/-- Gregorian leap-year test. -/
def isLeap (y : Nat) : Bool := (y % 4 == 0 && y % 100 != 0) || y % 400 == 0

/-- Days in month `m` (1-based) of year `y`. -/
def daysInMonth (y m : Nat) : Nat :=
  if m = 2 then (if isLeap y then 29 else 28)
  else if m = 4 ∨ m = 6 ∨ m = 9 ∨ m = 11 then 30
  else 31

/-- Days from 1970-01-01 to the start of year `y`. -/
def daysBeforeYear (y : Nat) : Nat :=
  ((List.range (y - 1970)).map (fun i => if isLeap (1970 + i) then 366 else 365)).sum

/-- Days from the start of year `y` to the start of month `m` (1-based). -/
def daysBeforeMonth (y m : Nat) : Nat :=
  ((List.range (m - 1)).map (fun i => daysInMonth y (i + 1))).sum

/-- Civil day number (days since 1970-01-01) of the date `y-m-d`. -/
def epochDay (y m d : Nat) : Nat := daysBeforeYear y + daysBeforeMonth y m + (d - 1)

/-- Seconds since the epoch of the UTC instant `y-m-d h:mi:s`. -/
def utcSeconds (y m d h mi s : Nat) : Nat :=
  epochDay y m d * 86400 + h * 3600 + mi * 60 + s

/-! ## Virality gate (`src/app/stats.py`, `is_viral`) -/

/-- The statistics dictionary built by `get_video_stats`; each field is
`Option` so a missing key (read with `stats.get(k, 0)`) is representable. -/
structure VideoStats where
  views : Option Nat
  likes : Option Nat
  comments : Option Nat
  deriving DecidableEq, Repr

/-- `is_viral(stats, min_views=1000000, min_likes=150000, min_comments=5000)`:
`False` when `stats` is `None`, otherwise the conjunction of the three
threshold tests with missing metrics read as 0. -/
def is_viral (stats : Option VideoStats) (min_views : Nat := 1000000)
    (min_likes : Nat := 150000) (min_comments : Nat := 5000) : Bool :=
  match stats with
  | none => false
  | some s =>
      decide (s.views.getD 0 ≥ min_views) &&
      decide (s.likes.getD 0 ≥ min_likes) &&
      decide (s.comments.getD 0 ≥ min_comments)

/-! ## URL scraping (`src/app/scraper.py`, `extract_video_id`) -/

/-- A character matched by the regex class `[^/?&]`. -/
def idCharOk (ch : Char) : Bool := ch ≠ '/' && ch ≠ '?' && ch ≠ '&'

/-- `re.search(r"shorts/([^/?&]+)", url)`: scan positions left to right; at the
first position where the literal `shorts/` matches and is followed by at least
one `[^/?&]` character, return the greedy run of such characters. -/
def extractFrom : List Char → Option (List Char)
  | [] => none
  | c :: rest =>
      if (c :: rest).take 7 = "shorts/".data ∧ ((c :: rest).drop 7).takeWhile idCharOk ≠ [] then
        some (((c :: rest).drop 7).takeWhile idCharOk)
      else extractFrom rest

/-- `extract_video_id(url)`: the regex group on a match, else `None`. -/
def extract_video_id (url : String) : Option String :=
  (extractFrom url.data).map fun cs => String.mk cs

/-! ## Discovery loop (`src/main.py`, `run_process` lines 33-61)

One `DiscoveryStep` is the external world of one `while` iteration: the
`driver.current_url` observed and the metrics response `get_video_stats`
would return for the extracted identifier. -/

structure DiscoveryStep where
  url : String
  stats : Option VideoStats
  deriving Repr

/-- The bounded `while attempts < max_attempts` loop: the list holds the steps
of the first `max_attempts` iterations.  Returns the `break` value (the first
viral, unprocessed identifier, or `none` when the loop exhausts) paired with
the number of attempts consumed.  Each unextractable URL, already-processed
candidate, and non-viral candidate consumes one attempt via `continue`. -/
def discoverLoop (ledger : String → Bool) : List DiscoveryStep → Option String × Nat
  | [] => (none, 0)
  | step :: rest =>
      match extract_video_id step.url with
      | none =>
          let r := discoverLoop ledger rest
          (r.1, r.2 + 1)
      | some vid =>
          if ledger vid then
            let r := discoverLoop ledger rest
            (r.1, r.2 + 1)
          else if is_viral step.stats then (some vid, 1)
          else
            let r := discoverLoop ledger rest
            (r.1, r.2 + 1)

/-- The discovery phase with `max_attempts` drawn from an unbounded stream. -/
def discover (ledger : String → Bool) (stream : Nat → DiscoveryStep)
    (max_attempts : Nat) : Option String × Nat :=
  discoverLoop ledger ((List.range max_attempts).map stream)

/-! ## Ledger and file system (`src/main.py`, `src/app/stats.py`) -/

/-- `os.path.exists` over a file system modelled as the list of existing
paths. -/
def hasPath (fs : List String) (p : String) : Bool := decide (p ∈ fs)

/-- Create a file (no-op when it already exists). -/
def insertPath (fs : List String) (p : String) : List String :=
  if p ∈ fs then fs else p :: fs

/-- `shutil.move src dst`. -/
def movePath (fs : List String) (src dst : String) : List String :=
  insertPath (fs.erase src) dst

/-- `os.path.join("downloads", f"{video_id}.json")`: the working-location
metadata marker. -/
def downloadsMarker (vid : String) : String := "downloads/" ++ vid ++ ".json"

/-- `os.path.join("shorts", f"{video_id}.json")`: the archive-location
metadata marker. -/
def shortsMarker (vid : String) : String := "shorts/" ++ vid ++ ".json"

/-- The already-processed check of `run_process` (main.py line 44):
`os.path.exists(downloads/{id}.json) or os.path.exists(shorts/{id}.json)`. -/
def isProcessed (fs : List String) (vid : String) : Bool :=
  hasPath fs (downloadsMarker vid) || hasPath fs (shortsMarker vid)

/-- The metadata record stored by the ledger. -/
structure VideoMetadata where
  title : String
  description : String
  tags : List String
  deriving DecidableEq, Repr

/-- Overwrite `p` with content `m` in a content-addressed store. -/
def writeFile (store : List (String × VideoMetadata)) (p : String)
    (m : VideoMetadata) : List (String × VideoMetadata) :=
  (p, m) :: store.filter fun e => e.1 ≠ p

/-- `save_video_metadata(video_id, metadata, output_dir)`: builds the target
path, attempts the write inside `try/except` (a failing write — `writeOk =
false` — is logged and swallowed), and unconditionally returns the path. -/
def save_video_metadata (video_id : String) (metadata : VideoMetadata)
    (output_dir : String) (writeOk : Bool)
    (store : List (String × VideoMetadata)) :
    String × List (String × VideoMetadata) :=
  let metadata_file := output_dir ++ "/" ++ video_id ++ ".json"
  (metadata_file, if writeOk then writeFile store metadata_file metadata else store)

/-! ## Success path of `run_process` (`src/main.py` lines 63-125) -/

/-- `downloads/{id}.mp4`: path returned by `download_video` (yt-dlp template
`%(id)s.%(ext)s` with `merge_output_format: "mp4"`). -/
def downloadedPath (vid : String) : String := "downloads/" ++ vid ++ ".mp4"

/-- `downloads/edited_{id}.mp4` (main.py line 82). -/
def editedVideoPath (vid : String) : String := "downloads/edited_" ++ vid ++ ".mp4"

/-- `downloads/edited_{id}.json` (main.py line 88). -/
def editedMetadataPath (vid : String) : String := "downloads/edited_" ++ vid ++ ".json"

/-- `shorts/edited_{id}.mp4` (main.py line 118). -/
def archiveVideoPath (vid : String) : String := "shorts/edited_" ++ vid ++ ".mp4"

/-- `shorts/edited_{id}.json` (main.py line 122). -/
def archiveMetadataPath (vid : String) : String := "shorts/edited_" ++ vid ++ ".json"

/-- The file-system effect of the post-discovery part of `run_process` when
every stage succeeds (download, metadata fetch and save, edit, both uploads,
archive move).  Mirrors main.py lines 65-124 step by step. -/
def run_success (vid : String) (fs : List String) : List String :=
  let fs1 := insertPath fs (downloadedPath vid)
  let fs2 := insertPath fs1 (downloadsMarker vid)
  let fs3 := insertPath fs2 (editedVideoPath vid)
  let fs4 := if hasPath fs3 (downloadsMarker vid) then
               insertPath fs3 (editedMetadataPath vid)
             else fs3
  let fs5 := movePath fs4 (editedVideoPath vid) (archiveVideoPath vid)
  let fs6 := if hasPath fs5 (editedMetadataPath vid) then
               movePath fs5 (editedMetadataPath vid) (archiveMetadataPath vid)
             else fs5
  fs6

/-- Number of metadata records for `vid` present in the archive location,
counted over the two file names the pipeline can produce there.  This
definition follows the spec's words ("archive metadata record for that
identifier"), for comparison against `run_success`. -/
def archiveMetadataEntries (fs : List String) (vid : String) : Nat :=
  (if hasPath fs (shortsMarker vid) then 1 else 0) +
  (if hasPath fs (archiveMetadataPath vid) then 1 else 0)

/-- Number of metadata records for `vid` present in the working location,
counted over the two file names the pipeline can produce there.  This
definition follows the spec's words ("metadata entries for that identifier in
the working location"), for comparison against `run_success`. -/
def workingMetadataEntries (fs : List String) (vid : String) : Nat :=
  (if hasPath fs (downloadsMarker vid) then 1 else 0) +
  (if hasPath fs (editedMetadataPath vid) then 1 else 0)

/-- All file paths the pipeline can associate with a candidate identifier; a
fresh (never-processed) candidate has none of them on disk. -/
def candidatePaths (vid : String) : List String :=
  [downloadedPath vid, downloadsMarker vid, editedVideoPath vid,
   editedMetadataPath vid, archiveVideoPath vid, archiveMetadataPath vid,
   shortsMarker vid]

/-! ## YouTube publish stage (`src/app/uploader.py`, `upload_video`) -/

/-- `upload_video`, as a state transformer on the persisted schedule cursor.
`authOk` is whether `authenticate_youtube()` returned a service; `insertId`
is the `id` field of the `videos().insert` response (`none` for a missing
field or any raised exception).  Returns the function's return value and the
post-call persisted `last_scheduled` cursor: `_save_schedule_data` runs
exactly when a truthy remote id came back. -/
def upload_video (now : Nat) (schedule : Option Nat) (authOk : Bool)
    (insertId : Option String) : Option String × Option Nat :=
  if !authOk then (none, schedule)
  else
    let publish_at := get_next_time_slot now schedule
    match insertId with
    | some vid => if vid = "" then (none, schedule) else (some vid, some publish_at)
    | none => (none, schedule)

/-! ## Instagram publish stage (`src/app/uploader.py`, `upload_instagram`) -/

/-- Python string truthiness for `Optional[str]`: `None` and `""` are falsy. -/
def pyFalsy : Option String → Bool
  | none => true
  | some s => s == ""

/-- Python's `needle in hay` substring test on character lists. -/
def containsSub (needle : List Char) : List Char → Bool
  | [] => needle.isEmpty
  | c :: rest => needle.isPrefixOf (c :: rest) || containsSub needle rest

/-- The token-error test of `upload_instagram`: `"expired" in msg.lower() or
"invalid" in msg.lower()` on the response's `error.message` (lower-casing is
per character, which agrees with Python on these ASCII needles). -/
def tokenErrorMsg (msg : String) : Bool :=
  containsSub "expired".data (msg.data.map Char.toLower) ||
  containsSub "invalid".data (msg.data.map Char.toLower)

/-- An Instagram Graph API HTTP response: status code, `error.message` (the
empty string when absent), and `id` field. -/
structure IgResponse where
  status : Nat
  errorMessage : String
  id : Option String
  deriving Repr

/-- Contents of `instagram_credentials.json`. -/
structure IgCreds where
  accessToken : Option String
  tempToken : Option String
  businessId : Option String
  appId : Option String
  appSecret : Option String
  deriving Repr

/-- The external world of one `upload_instagram` call.  The metadata-file
caption read only changes the caption payload string and is not modelled. -/
structure IgEnv where
  cloudinaryUrl : Option String
  creds : Option IgCreds
  createResp1 : IgResponse
  exchangeStatus : Nat
  exchangeToken : Option String
  createResp2 : IgResponse
  publishResp : IgResponse
  deriving Repr

/-- Observable outcome of `upload_instagram`: return value, number of
media-container POSTs made, number of token-exchange calls made, and the
token persisted by `save_instagram_credentials` (if any). -/
structure IgOutcome where
  result : Option String
  createCalls : Nat
  exchangeCalls : Nat
  savedToken : Option String
  deriving Repr

/-- `exchange_for_long_lived_token`: on HTTP 200, return the `access_token`
field when truthy; otherwise `None`. -/
def exchange_for_long_lived_token (env : IgEnv) : Option String :=
  if env.exchangeStatus = 200 then
    if pyFalsy env.exchangeToken then none else env.exchangeToken
  else none

/-- `get_instagram_credentials_data`: the `(token, business_id, app_id,
app_secret, temp_token)` tuple, with the long-lived token falling back to the
temporary token when falsy. -/
def igCredsData (creds : Option IgCreds) :
    Option String × Option String × Option String × Option String × Option String :=
  match creds with
  | none => (none, none, none, none, none)
  | some c =>
      let token := if pyFalsy c.accessToken then c.tempToken else c.accessToken
      (token, c.businessId, c.appId, c.appSecret, c.tempToken)

/-- The tail of `upload_instagram` once a media-container response `r` with
status 200 is in hand: check `creation_id`, POST `media_publish`, check the
post id.  `handle_instagram_error` on a failed publish only logs — no refresh
or retry happens here. -/
def igFinishPublish (r publishResp : IgResponse)
    (createCalls exchangeCalls : Nat) (savedToken : Option String) : IgOutcome :=
  if pyFalsy r.id then ⟨none, createCalls, exchangeCalls, savedToken⟩
  else if publishResp.status ≠ 200 then ⟨none, createCalls, exchangeCalls, savedToken⟩
  else if pyFalsy publishResp.id then ⟨none, createCalls, exchangeCalls, savedToken⟩
  else ⟨publishResp.id, createCalls, exchangeCalls, savedToken⟩

/-- `upload_instagram`: Cloudinary upload, credential checks, first
media-container POST; on a non-200 whose `error.message` mentions
expired/invalid, exactly one token exchange, persist, and one retried POST;
then the publish tail. -/
def upload_instagram (env : IgEnv) : IgOutcome :=
  match env.cloudinaryUrl with
  | none => ⟨none, 0, 0, none⟩
  | some _ =>
      let (token, businessId, appId, appSecret, tempToken) := igCredsData env.creds
      if pyFalsy token || pyFalsy businessId || pyFalsy appId ||
          pyFalsy appSecret || pyFalsy tempToken then
        ⟨none, 0, 0, none⟩
      else
        let r1 := env.createResp1
        if r1.status ≠ 200 then
          if tokenErrorMsg r1.errorMessage then
            match exchange_for_long_lived_token env with
            | some newToken =>
                let r2 := env.createResp2
                if r2.status ≠ 200 then ⟨none, 2, 1, some newToken⟩
                else igFinishPublish r2 env.publishResp 2 1 (some newToken)
            | none => ⟨none, 1, 1, none⟩
          else ⟨none, 1, 0, none⟩
        else igFinishPublish r1 env.publishResp 1 0 none

/-! ### Allocator lemmas -/

/-- Closed form of the scheduling loop: the first cadence slot on the
candidate's day strictly after the candidate, else the 10:00 slot of the
next day. -/
theorem nextSlotLoop_two_eq (c : Nat) :
    nextSlotLoop 2 c =
      some (if c < slotOnDay (c / 86400) 10 then slotOnDay (c / 86400) 10
            else if c < slotOnDay (c / 86400) 18 then slotOnDay (c / 86400) 18
            else slotOnDay (c / 86400 + 1) 10) := by
  have hdiv : (c / 86400 + 1) * 86400 / 86400 = c / 86400 + 1 := by omega
  by_cases h1 : c < slotOnDay (c / 86400) 10
  · simp [nextSlotLoop, findSlotOnDay, scanHours, TIME_SLOTS_UTC, h1]
  · by_cases h2 : c < slotOnDay (c / 86400) 18
    · simp [nextSlotLoop, findSlotOnDay, scanHours, TIME_SLOTS_UTC, h1, h2]
    · have h3 : (c / 86400 + 1) * 86400 < slotOnDay (c / 86400 + 1) 10 := by
        simp [slotOnDay]
      simp [nextSlotLoop, findSlotOnDay, scanHours, TIME_SLOTS_UTC, h1, h2, hdiv, h3]

theorem get_next_time_slot_eq (now : Nat) (last : Option Nat) :
    get_next_time_slot now last =
      (if scheduleCandidate now last < slotOnDay (scheduleCandidate now last / 86400) 10 then
        slotOnDay (scheduleCandidate now last / 86400) 10
      else if scheduleCandidate now last < slotOnDay (scheduleCandidate now last / 86400) 18 then
        slotOnDay (scheduleCandidate now last / 86400) 18
      else slotOnDay (scheduleCandidate now last / 86400 + 1) 10) := by
  simp [get_next_time_slot, nextSlotLoop_two_eq]

theorem candidate_lt_next (now : Nat) (last : Option Nat) :
    scheduleCandidate now last < get_next_time_slot now last := by
  rw [get_next_time_slot_eq]
  split_ifs with h1 h2
  · exact h1
  · exact h2
  · simp only [slotOnDay]
    omega

theorem now_le_candidate (now : Nat) (last : Option Nat) :
    now ≤ scheduleCandidate now last := by
  cases last with
  | none => simp [scheduleCandidate]
  | some l => simp only [scheduleCandidate]; split_ifs <;> omega

theorem last_le_candidate (now l : Nat) :
    l ≤ scheduleCandidate now (some l) := by
  simp only [scheduleCandidate]; split_ifs <;> omega

/-! ### File-system lemmas -/

theorem mem_insertPath {fs : List String} {p q : String} :
    q ∈ insertPath fs p ↔ q = p ∨ q ∈ fs := by
  simp only [insertPath]
  split_ifs with h
  · exact ⟨fun hq => Or.inr hq, fun hq => hq.elim (fun e => e ▸ h) id⟩
  · simp [List.mem_cons]

/-! ## Claim theorems -/

/-- C5: `is_viral` returns true iff all three metrics (missing ones read as 0)
meet or exceed their thresholds; it is false on a `None` stats value, and false
whenever any metric is missing or zero against a nonzero threshold.  As a Lean
function of its arguments it is pure, deterministic and side-effect-free by
construction. -/
theorem is_viral_spec (s : VideoStats) (mv ml mc : Nat) :
    (is_viral (some s) mv ml mc = true ↔
      s.views.getD 0 ≥ mv ∧ s.likes.getD 0 ≥ ml ∧ s.comments.getD 0 ≥ mc)
    ∧ is_viral none mv ml mc = false
    ∧ ((s.views = none ∨ s.views = some 0) → 0 < mv → is_viral (some s) mv ml mc = false)
    ∧ ((s.likes = none ∨ s.likes = some 0) → 0 < ml → is_viral (some s) mv ml mc = false)
    ∧ ((s.comments = none ∨ s.comments = some 0) → 0 < mc →
        is_viral (some s) mv ml mc = false) := by
  refine ⟨?_, rfl, ?_, ?_, ?_⟩
  · simp [is_viral, and_assoc]
  · rintro (hv | hv) hmv <;> simp [is_viral, hv] <;> omega
  · rintro (hv | hv) hmv <;> simp [is_viral, hv] <;> omega
  · rintro (hv | hv) hmv <;> simp [is_viral, hv] <;> omega

theorem is_viral_spec_witness :
    is_viral (some ⟨none, some 5, some 5⟩) 1 1 1 = false :=
  (is_viral_spec ⟨none, some 5, some 5⟩ 1 1 1).2.2.1 (Or.inl rfl) (by decide)

/-- C8: the processed check of `run_process` is exactly "a marker exists in the
working location or in the archive location": it holds after either marker is
created, keeps holding after the other is created, and fails precisely when
the identifier is absent from both. -/
theorem isProcessed_spec (fs : List String) (vid : String) :
    (isProcessed fs vid = true ↔ downloadsMarker vid ∈ fs ∨ shortsMarker vid ∈ fs)
    ∧ isProcessed (insertPath fs (downloadsMarker vid)) vid = true
    ∧ isProcessed (insertPath fs (shortsMarker vid)) vid = true
    ∧ isProcessed (insertPath (insertPath fs (downloadsMarker vid)) (shortsMarker vid)) vid = true
    ∧ isProcessed (insertPath (insertPath fs (shortsMarker vid)) (downloadsMarker vid)) vid = true
    ∧ (downloadsMarker vid ∉ fs → shortsMarker vid ∉ fs → isProcessed fs vid = false) := by
  refine ⟨by simp [isProcessed, hasPath], ?_, ?_, ?_, ?_, ?_⟩
  · simp [isProcessed, hasPath, mem_insertPath]
  · simp [isProcessed, hasPath, mem_insertPath]
  · simp [isProcessed, hasPath, mem_insertPath]
  · simp [isProcessed, hasPath, mem_insertPath]
  · intro h1 h2
    simp [isProcessed, hasPath, h1, h2]

theorem isProcessed_spec_witness : isProcessed [] "v" = false :=
  (isProcessed_spec [] "v").2.2.2.2.2 (by simp) (by simp)

/-- C10: `save_video_metadata` is total and always returns the target metadata
file path `output_dir/{video_id}.json`; a failing write (`writeOk = false`) is
swallowed inside `try/except`, so the returned value is identical whether the
write succeeded or not, and the caller cannot distinguish the two by the
return value. -/
theorem save_video_metadata_total (vid : String) (md : VideoMetadata)
    (dir : String) (writeOk : Bool) (store : List (String × VideoMetadata)) :
    (save_video_metadata vid md dir writeOk store).1 = dir ++ "/" ++ vid ++ ".json"
    ∧ (save_video_metadata vid md dir true store).1 =
        (save_video_metadata vid md dir false store).1 :=
  ⟨rfl, rfl⟩

theorem findSlotOnDay_none_iff (c d : Nat) :
    findSlotOnDay c d = none ↔ ¬ c < slotOnDay d 10 ∧ ¬ c < slotOnDay d 18 := by
  simp only [findSlotOnDay, scanHours, TIME_SLOTS_UTC]
  split_ifs with h1 h2 <;> simp_all

/-- C2: with cadence hours {10, 18} UTC and no persisted prior schedule, the
allocator returns `2025-04-03T10:00:00Z` for `now = 2025-04-03T09:00:00Z` and
`2025-04-04T10:00:00Z` for `now = 2025-04-03T19:00:00Z`; in general, with no
prior schedule the returned instant is a cadence slot of the candidate's day
or the next day, strictly greater than the candidate `now`, and minimal among
all such slots — i.e. the first one in the ascending day-then-hour scan. -/
theorem next_slot_cadence_examples :
    get_next_time_slot (utcSeconds 2025 4 3 9 0 0) none = utcSeconds 2025 4 3 10 0 0
    ∧ get_next_time_slot (utcSeconds 2025 4 3 19 0 0) none = utcSeconds 2025 4 4 10 0 0
    ∧ ∀ now : Nat,
        now < get_next_time_slot now none
        ∧ (∃ day h, (day = now / 86400 ∨ day = now / 86400 + 1) ∧ h ∈ TIME_SLOTS_UTC ∧
            get_next_time_slot now none = slotOnDay day h)
        ∧ ∀ day h, (day = now / 86400 ∨ day = now / 86400 + 1) → h ∈ TIME_SLOTS_UTC →
            now < slotOnDay day h → get_next_time_slot now none ≤ slotOnDay day h := by
  refine ⟨by decide, by decide, fun now => ?_⟩
  have heq := get_next_time_slot_eq now none
  have hcand : scheduleCandidate now none = now := rfl
  rw [hcand] at heq
  split_ifs at heq with h1 h2
  · refine ⟨heq ▸ h1, ⟨now / 86400, 10, Or.inl rfl, by simp [TIME_SLOTS_UTC], heq⟩, ?_⟩
    rintro day h (rfl | rfl) hh hlt <;> rw [heq] <;>
      simp only [TIME_SLOTS_UTC, List.mem_cons, List.not_mem_nil, or_false] at hh <;>
      rcases hh with rfl | rfl <;> simp only [slotOnDay] at * <;> omega
  · refine ⟨heq ▸ h2, ⟨now / 86400, 18, Or.inl rfl, by simp [TIME_SLOTS_UTC], heq⟩, ?_⟩
    rintro day h (rfl | rfl) hh hlt <;> rw [heq] <;>
      simp only [TIME_SLOTS_UTC, List.mem_cons, List.not_mem_nil, or_false] at hh <;>
      rcases hh with rfl | rfl <;> simp only [slotOnDay] at * <;> omega
  · refine ⟨?_, ⟨now / 86400 + 1, 10, Or.inr rfl, by simp [TIME_SLOTS_UTC], heq⟩, ?_⟩
    · rw [heq]; simp only [slotOnDay] at *; omega
    · rintro day h (rfl | rfl) hh hlt <;> rw [heq] <;>
        simp only [TIME_SLOTS_UTC, List.mem_cons, List.not_mem_nil, or_false] at hh <;>
        rcases hh with rfl | rfl <;> simp only [slotOnDay] at * <;> omega

theorem next_slot_cadence_examples_witness :
    get_next_time_slot 0 none ≤ slotOnDay 0 10 :=
  (next_slot_cadence_examples.2.2 0).2.2 0 10 (Or.inl (by decide)) (by decide) (by decide)

/-- C3: every allocated slot is strictly greater than `now` at call time and
strictly greater than any persisted `last_scheduled` value, and the allocator
is a pure deterministic function of `(now, last)`: repeated calls without an
intervening persist return the same slot. -/
theorem next_slot_monotonic (now : Nat) (last : Option Nat) :
    now < get_next_time_slot now last
    ∧ (∀ l, last = some l → l < get_next_time_slot now last)
    ∧ ∀ s1 s2, get_next_time_slot now last = s1 → get_next_time_slot now last = s2 →
        s1 = s2 := by
  have h := candidate_lt_next now last
  refine ⟨lt_of_le_of_lt (now_le_candidate now last) h, ?_, ?_⟩
  · rintro l rfl
    exact lt_of_le_of_lt (last_le_candidate now l) h
  · rintro s1 s2 rfl rfl
    rfl

theorem next_slot_monotonic_witness : 5 < get_next_time_slot 0 (some 5) :=
  (next_slot_monotonic 0 (some 5)).2.1 5 rfl

/-- C9: for every `now` and persisted state the scheduling loop terminates
with fuel 2: it returns some slot strictly after the candidate, at most one
calendar day later; and when no cadence hour of the candidate's day
qualifies, the result is the first cadence slot (10:00 UTC) of the next
day. -/
theorem next_slot_terminates (now : Nat) (last : Option Nat) :
    (∃ s, nextSlotLoop 2 (scheduleCandidate now last) = some s
      ∧ scheduleCandidate now last < s
      ∧ s / 86400 ≤ scheduleCandidate now last / 86400 + 1)
    ∧ (findSlotOnDay (scheduleCandidate now last) (scheduleCandidate now last / 86400) = none →
        nextSlotLoop 2 (scheduleCandidate now last) =
          some (slotOnDay (scheduleCandidate now last / 86400 + 1) 10)) := by
  constructor
  · rw [nextSlotLoop_two_eq]
    refine ⟨_, rfl, ?_, ?_⟩ <;>
      split_ifs with h1 h2 <;> simp only [slotOnDay] at * <;> omega
  · intro hnone
    rw [findSlotOnDay_none_iff] at hnone
    rw [nextSlotLoop_two_eq, if_neg hnone.1, if_neg hnone.2]

theorem next_slot_terminates_witness :
    nextSlotLoop 2 (scheduleCandidate 64800 none) =
      some (slotOnDay (scheduleCandidate 64800 none / 86400 + 1) 10) :=
  (next_slot_terminates 64800 none).2 (by decide)

theorem schedule_ne_next (now : Nat) (st : Option Nat) :
    st ≠ some (get_next_time_slot now st) := by
  intro h
  have hlt := candidate_lt_next now st
  cases st with
  | none => exact Option.noConfusion h
  | some l =>
      have hle := last_le_candidate now l
      have : l = get_next_time_slot now (some l) := Option.some.inj h
      omega

/-- C4: in the YouTube publish stage the allocated slot is persisted as the new
scheduler cursor exactly when the submission returns a (truthy) remote id; on
any failure the persisted state is unchanged — in particular it is not the
allocated slot — so the allocator returns the same slot again on the next
invocation with the same clock. -/
theorem upload_video_persist_iff (now : Nat) (st : Option Nat) (authOk : Bool)
    (rid : Option String) :
    ((upload_video now st authOk rid).1.isSome ↔
      (upload_video now st authOk rid).2 = some (get_next_time_slot now st))
    ∧ ((upload_video now st authOk rid).1 = none →
        (upload_video now st authOk rid).2 = st
        ∧ get_next_time_slot now (upload_video now st authOk rid).2 =
            get_next_time_slot now st) := by
  have hne := schedule_ne_next now st
  cases authOk with
  | false => simp [upload_video, hne]
  | true =>
      cases rid with
      | none => simp [upload_video, hne]
      | some vid =>
          by_cases hv : vid = ""
          · simp [upload_video, hv, hne]
          · simp [upload_video, hv]

theorem upload_video_persist_iff_witness : (upload_video 0 none false none).2 = none :=
  ((upload_video_persist_iff 0 none false none).2 rfl).1

/-- C6: if no step of the discovery source yields a viral, unprocessed,
extractable candidate, the loop consumes exactly its attempt bound and
returns no candidate (`NotFound`); the first step that does yield one stops
the loop immediately and returns that candidate (first-viral-wins), having
consumed one attempt per preceding step plus one; in particular with
`max_attempts = N` and a never-qualifying stream the loop performs exactly
`N` attempts. -/
theorem discover_bound_spec (ledger : String → Bool) :
    (∀ steps : List DiscoveryStep,
      (∀ st ∈ steps, ∀ v, extract_video_id st.url = some v →
          ledger v = false → is_viral st.stats = false) →
      discoverLoop ledger steps = (none, steps.length))
    ∧ (∀ (pre : List DiscoveryStep) (st : DiscoveryStep) (post : List DiscoveryStep)
        (vid : String),
        (∀ st' ∈ pre, ∀ v, extract_video_id st'.url = some v →
            ledger v = false → is_viral st'.stats = false) →
        extract_video_id st.url = some vid → ledger vid = false →
        is_viral st.stats = true →
        discoverLoop ledger (pre ++ st :: post) = (some vid, pre.length + 1))
    ∧ ∀ (stream : Nat → DiscoveryStep) (N : Nat),
        (∀ i, i < N → ∀ v, extract_video_id (stream i).url = some v →
            ledger v = false → is_viral (stream i).stats = false) →
        discover ledger stream N = (none, N) := by
  have part1 : ∀ steps : List DiscoveryStep,
      (∀ st ∈ steps, ∀ v, extract_video_id st.url = some v →
          ledger v = false → is_viral st.stats = false) →
      discoverLoop ledger steps = (none, steps.length) := by
    intro steps
    induction steps with
    | nil => intro _; rfl
    | cons st rest ih =>
        intro hall
        have hrest := ih fun st' hm => hall st' (List.mem_cons_of_mem st hm)
        have hst := hall st (List.mem_cons_self st rest)
        simp only [discoverLoop]
        cases hx : extract_video_id st.url with
        | none => simp [hrest]
        | some v =>
            cases hl : ledger v with
            | true => simp [hl, hrest]
            | false =>
                have : is_viral st.stats = false := hst v hx hl
                simp [hl, this, hrest]
  refine ⟨part1, ?_, ?_⟩
  · intro pre
    induction pre with
    | nil =>
        intro st post vid _ hx hl hv
        simp [discoverLoop, hx, hl, hv]
    | cons p pre' ih =>
        intro st post vid hall hx hl hv
        have hp := hall p (List.mem_cons_self p pre')
        have hpre' := ih st post vid (fun st' hm => hall st' (List.mem_cons_of_mem p hm)) hx hl hv
        simp only [List.cons_append, discoverLoop]
        cases hxp : extract_video_id p.url with
        | none => simp [hpre', List.length_cons]
        | some v =>
            cases hlp : ledger v with
            | true => simp [hlp, hpre', List.length_cons]
            | false =>
                have : is_viral p.stats = false := hp v hxp hlp
                simp [hlp, this, hpre', List.length_cons]
  · intro stream N hall
    have := part1 ((List.range N).map stream) ?_
    · simpa [discover] using this
    · intro st hm v hx hl
      rcases List.mem_map.mp hm with ⟨i, hi, rfl⟩
      exact hall i (List.mem_range.mp hi) v hx hl

theorem discover_bound_spec_witness :
    discoverLoop (fun _ => false)
      [⟨"x/shorts/v", some ⟨some 2000000, some 200000, some 6000⟩⟩] = (some "v", 1) :=
  (discover_bound_spec (fun _ => false)).2.1 []
    ⟨"x/shorts/v", some ⟨some 2000000, some 200000, some 6000⟩⟩ [] "v"
    (by simp) (by decide) rfl (by decide)

theorem igFinishPublish_counts (r p : IgResponse) (cc ec : Nat)
    (tok : Option String) :
    (igFinishPublish r p cc ec tok).createCalls = cc
    ∧ (igFinishPublish r p cc ec tok).exchangeCalls = ec
    ∧ (igFinishPublish r p cc ec tok).savedToken = tok
    ∧ (p.status ≠ 200 → (igFinishPublish r p cc ec tok).result = none) := by
  simp only [igFinishPublish]
  split_ifs <;> simp_all

/-- C7: `upload_instagram` performs at most one credential-refresh cycle and
at most one retried submission in any execution; when the first container
submission fails with a message reporting the token expired/invalid (and the
stage reached submission at all), exactly one exchange happens, and: on a
successful exchange the new token is persisted and exactly one retry is made,
any retry failure aborting with `None`; on a failed exchange the run aborts
with `None` after the single exchange.  A failed `media_publish` step always
aborts with `None` — no refresh or retry occurs there. -/
theorem upload_instagram_refresh_policy (env : IgEnv) :
    (upload_instagram env).exchangeCalls ≤ 1
    ∧ (upload_instagram env).createCalls ≤ 2
    ∧ (env.createResp1.status ≠ 200 → tokenErrorMsg env.createResp1.errorMessage = true →
        (upload_instagram env).createCalls ≠ 0 →
        ((∀ t, exchange_for_long_lived_token env = some t →
            (upload_instagram env).exchangeCalls = 1
            ∧ (upload_instagram env).createCalls = 2
            ∧ (upload_instagram env).savedToken = some t
            ∧ (env.createResp2.status ≠ 200 → (upload_instagram env).result = none))
          ∧ (exchange_for_long_lived_token env = none →
              (upload_instagram env).result = none
              ∧ (upload_instagram env).exchangeCalls = 1
              ∧ (upload_instagram env).createCalls = 1)))
    ∧ (env.publishResp.status ≠ 200 → (upload_instagram env).result = none) := by
  obtain ⟨curl, creds, r1, exSt, exTok, r2, pub⟩ := env
  simp only [upload_instagram]
  cases curl with
  | none => simp
  | some u =>
      rcases hc : igCredsData creds with ⟨tok, biz, app, sec, tmp⟩
      by_cases hguard :
          (pyFalsy tok || pyFalsy biz || pyFalsy app || pyFalsy sec || pyFalsy tmp) = true
      · simp [hguard]
      · rw [Bool.not_eq_true] at hguard
        simp only [hguard, Bool.false_eq_true, if_false]
        by_cases h1 : r1.status ≠ 200
        · rw [if_pos h1]
          by_cases hmsg : tokenErrorMsg r1.errorMessage = true
          · rw [if_pos hmsg]
            cases hex : exchange_for_long_lived_token ⟨some u, creds, r1, exSt, exTok, r2, pub⟩ with
            | some newTok =>
                dsimp only
                by_cases h2 : r2.status ≠ 200
                · rw [if_pos h2]
                  refine ⟨Nat.le_refl 1, Nat.le_refl 2, ?_, fun _ => rfl⟩
                  intro _ _ _
                  refine ⟨fun t ht => ?_, fun hn => Option.noConfusion hn⟩
                  cases ht
                  exact ⟨rfl, rfl, rfl, fun _ => rfl⟩
                · rw [if_neg h2]
                  have hfin := igFinishPublish_counts r2 pub 2 1 (some newTok)
                  refine ⟨by simp [hfin.2.1], by simp [hfin.1], ?_,
                    fun hp => hfin.2.2.2 hp⟩
                  intro _ _ _
                  refine ⟨fun t ht => ?_, fun hn => Option.noConfusion hn⟩
                  cases ht
                  exact ⟨hfin.2.1, hfin.1, hfin.2.2.1, fun hr2 => absurd hr2 h2⟩
            | none =>
                dsimp only
                refine ⟨by decide, by decide, ?_, fun _ => rfl⟩
                intro _ _ _
                exact ⟨fun t ht => Option.noConfusion ht,
                  fun _ => ⟨rfl, rfl, rfl⟩⟩
          · rw [Bool.not_eq_true] at hmsg
            rw [if_neg (by simp [hmsg])]
            refine ⟨by decide, by decide, ?_, fun _ => rfl⟩
            intro _ hmsg' _
            exact absurd hmsg' (by simp [hmsg])
        · rw [if_neg h1]
          push_neg at h1
          have hfin := igFinishPublish_counts r1 pub 1 0 none
          refine ⟨by simp [hfin.2.1], by simp [hfin.1], ?_, fun hp => hfin.2.2.2 hp⟩
          intro hr1 _ _
          exact absurd h1 hr1

theorem upload_instagram_refresh_policy_witness :
    (upload_instagram ⟨some "u",
      some ⟨some "tok", some "tmp", some "biz", some "app", some "sec"⟩,
      ⟨400, "token expired", none⟩, 200, some "newtok",
      ⟨400, "still bad", none⟩, ⟨200, "", some "p"⟩⟩).result = none :=
  (((upload_instagram_refresh_policy ⟨some "u",
      some ⟨some "tok", some "tmp", some "biz", some "app", some "sec"⟩,
      ⟨400, "token expired", none⟩, 200, some "newtok",
      ⟨400, "still bad", none⟩, ⟨200, "", some "p"⟩⟩).2.2.1
    (by decide) (by decide) (by decide)).1 "newtok" rfl).2.2.2 (by decide)

theorem string_ne_of_len {a b : String} (h : a.length ≠ b.length) : a ≠ b :=
  fun he => h (congrArg String.length he)

theorem candidate_path_lengths (vid : String) :
    (downloadedPath vid).length = vid.length + 14
    ∧ (downloadsMarker vid).length = vid.length + 15
    ∧ (editedVideoPath vid).length = vid.length + 21
    ∧ (editedMetadataPath vid).length = vid.length + 22
    ∧ (archiveVideoPath vid).length = vid.length + 18
    ∧ (archiveMetadataPath vid).length = vid.length + 19
    ∧ (shortsMarker vid).length = vid.length + 12 := by
  have e1 : ("downloads/" : String).length = 10 := rfl
  have e2 : (".mp4" : String).length = 4 := rfl
  have e3 : (".json" : String).length = 5 := rfl
  have e4 : ("downloads/edited_" : String).length = 17 := rfl
  have e5 : ("shorts/edited_" : String).length = 14 := rfl
  have e6 : ("shorts/" : String).length = 7 := rfl
  refine ⟨?_, ?_, ?_, ?_, ?_, ?_, ?_⟩ <;>
    simp only [downloadedPath, downloadsMarker, editedVideoPath, editedMetadataPath,
      archiveVideoPath, archiveMetadataPath, shortsMarker, String.length_append,
      e1, e2, e3, e4, e5, e6] <;> omega

/-- C1 (counterexample): for candidate "abc" starting from an empty store, a
fully successful run does NOT leave zero metadata entries for the identifier
in the working location together with exactly one archive record — the
original `downloads/abc.json` record survives the archive step. -/
theorem run_success_counterexample :
    ¬ (archiveMetadataEntries (run_success "abc" []) "abc" = 1
       ∧ workingMetadataEntries (run_success "abc" []) "abc" = 0) := by decide

/-- C1 (amended): for every fresh candidate (none of its associated paths yet
present), a run in which retrieval, metadata save, edit and both platform
publishes succeed leaves exactly one archive metadata record for the
identifier (`shorts/edited_{id}.json`) and exactly one — not zero — metadata
entry in the working location (`downloads/{id}.json`), which is precisely the
marker the processed check relies on afterwards. -/
theorem run_success_ledger_state (vid : String) (fs : List String)
    (hfresh : ∀ p ∈ candidatePaths vid, p ∉ fs) :
    archiveMetadataEntries (run_success vid fs) vid = 1
    ∧ workingMetadataEntries (run_success vid fs) vid = 1
    ∧ isProcessed (run_success vid fs) vid = true := by
  obtain ⟨L1, L2, L3, L4, L5, L6, L7⟩ := candidate_path_lengths vid
  have hP1 : downloadedPath vid ∉ fs := hfresh _ (by simp [candidatePaths])
  have hM : downloadsMarker vid ∉ fs := hfresh _ (by simp [candidatePaths])
  have hE : editedVideoPath vid ∉ fs := hfresh _ (by simp [candidatePaths])
  have hEM : editedMetadataPath vid ∉ fs := hfresh _ (by simp [candidatePaths])
  have hAV : archiveVideoPath vid ∉ fs := hfresh _ (by simp [candidatePaths])
  have hAM : archiveMetadataPath vid ∉ fs := hfresh _ (by simp [candidatePaths])
  have hSM : shortsMarker vid ∉ fs := hfresh _ (by simp [candidatePaths])
  have nMP : downloadsMarker vid ≠ downloadedPath vid := string_ne_of_len (by omega)
  have nEM' : editedVideoPath vid ≠ downloadsMarker vid := string_ne_of_len (by omega)
  have nEP : editedVideoPath vid ≠ downloadedPath vid := string_ne_of_len (by omega)
  have nEmE : editedMetadataPath vid ≠ editedVideoPath vid := string_ne_of_len (by omega)
  have nEmM : editedMetadataPath vid ≠ downloadsMarker vid := string_ne_of_len (by omega)
  have nEmP : editedMetadataPath vid ≠ downloadedPath vid := string_ne_of_len (by omega)
  have nAvEm : archiveVideoPath vid ≠ editedMetadataPath vid := string_ne_of_len (by omega)
  have nAvM : archiveVideoPath vid ≠ downloadsMarker vid := string_ne_of_len (by omega)
  have nAvP : archiveVideoPath vid ≠ downloadedPath vid := string_ne_of_len (by omega)
  have nAmAv : archiveMetadataPath vid ≠ archiveVideoPath vid := string_ne_of_len (by omega)
  have nAmM : archiveMetadataPath vid ≠ downloadsMarker vid := string_ne_of_len (by omega)
  have nAmP : archiveMetadataPath vid ≠ downloadedPath vid := string_ne_of_len (by omega)
  have nSmAm : shortsMarker vid ≠ archiveMetadataPath vid := string_ne_of_len (by omega)
  have nSmAv : shortsMarker vid ≠ archiveVideoPath vid := string_ne_of_len (by omega)
  have nSmM : shortsMarker vid ≠ downloadsMarker vid := string_ne_of_len (by omega)
  have nSmP : shortsMarker vid ≠ downloadedPath vid := string_ne_of_len (by omega)
  have nEmAm : editedMetadataPath vid ≠ archiveMetadataPath vid := string_ne_of_len (by omega)
  have nEmAv : editedMetadataPath vid ≠ archiveVideoPath vid := string_ne_of_len (by omega)
  have s1 : insertPath fs (downloadedPath vid) = downloadedPath vid :: fs := by
    simp [insertPath, hP1]
  have s2 : insertPath (downloadedPath vid :: fs) (downloadsMarker vid)
      = downloadsMarker vid :: downloadedPath vid :: fs := by
    simp [insertPath, List.mem_cons, nMP, hM]
  have s3 : insertPath (downloadsMarker vid :: downloadedPath vid :: fs) (editedVideoPath vid)
      = editedVideoPath vid :: downloadsMarker vid :: downloadedPath vid :: fs := by
    simp [insertPath, List.mem_cons, nEM', nEP, hE]
  have c4 : hasPath (editedVideoPath vid :: downloadsMarker vid :: downloadedPath vid :: fs)
      (downloadsMarker vid) = true := by
    simp [hasPath, List.mem_cons]
  have s4 : insertPath (editedVideoPath vid :: downloadsMarker vid :: downloadedPath vid :: fs)
      (editedMetadataPath vid)
      = editedMetadataPath vid :: editedVideoPath vid :: downloadsMarker vid ::
          downloadedPath vid :: fs := by
    simp [insertPath, List.mem_cons, nEmE, nEmM, nEmP, hEM]
  have s5e : (editedMetadataPath vid :: editedVideoPath vid :: downloadsMarker vid ::
        downloadedPath vid :: fs).erase (editedVideoPath vid)
      = editedMetadataPath vid :: downloadsMarker vid :: downloadedPath vid :: fs := by
    rw [List.erase_cons_tail (by simp [nEmE]), List.erase_cons_head]
  have s5 : movePath (editedMetadataPath vid :: editedVideoPath vid :: downloadsMarker vid ::
        downloadedPath vid :: fs) (editedVideoPath vid) (archiveVideoPath vid)
      = archiveVideoPath vid :: editedMetadataPath vid :: downloadsMarker vid ::
          downloadedPath vid :: fs := by
    rw [movePath, s5e]
    simp [insertPath, List.mem_cons, nAvEm, nAvM, nAvP, hAV]
  have c6 : hasPath (archiveVideoPath vid :: editedMetadataPath vid :: downloadsMarker vid ::
      downloadedPath vid :: fs) (editedMetadataPath vid) = true := by
    simp [hasPath, List.mem_cons]
  have s6e : (archiveVideoPath vid :: editedMetadataPath vid :: downloadsMarker vid ::
        downloadedPath vid :: fs).erase (editedMetadataPath vid)
      = archiveVideoPath vid :: downloadsMarker vid :: downloadedPath vid :: fs := by
    rw [List.erase_cons_tail (by simp [nAvEm]), List.erase_cons_head]
  have s6 : movePath (archiveVideoPath vid :: editedMetadataPath vid :: downloadsMarker vid ::
        downloadedPath vid :: fs) (editedMetadataPath vid) (archiveMetadataPath vid)
      = archiveMetadataPath vid :: archiveVideoPath vid :: downloadsMarker vid ::
          downloadedPath vid :: fs := by
    rw [movePath, s6e]
    simp [insertPath, List.mem_cons, nAmAv, nAmM, nAmP, hAM]
  have hrun : run_success vid fs
      = archiveMetadataPath vid :: archiveVideoPath vid :: downloadsMarker vid ::
          downloadedPath vid :: fs := by
    simp only [run_success, s1, s2, s3, c4, if_true, s4, s5, c6, s6]
  rw [hrun]
  refine ⟨?_, ?_, ?_⟩
  · simp [archiveMetadataEntries, hasPath, List.mem_cons, nSmAm, nSmAv, nSmM, nSmP, hSM]
  · simp [workingMetadataEntries, hasPath, List.mem_cons, nEmAm, nEmAv, nEmE, nEmM, nEmP, hEM]
  · simp [isProcessed, hasPath, List.mem_cons]

theorem run_success_ledger_state_witness :
    archiveMetadataEntries (run_success "abc" []) "abc" = 1
    ∧ workingMetadataEntries (run_success "abc" []) "abc" = 1
    ∧ isProcessed (run_success "abc" []) "abc" = true :=
  run_success_ledger_state "abc" [] (by simp)

end ShortBuilder
